import Mathlib

/-!
Shallow embedding of the SIAC asset-inventory backend handlers
(src/server/src/handlers) over an explicit relational state.

Conventions of the embedding:
* the relational store is a `DB` structure holding one list per table plus
  the serial-id counters of the tables the modelled handlers insert into;
* timestamps (`new Date()`, `Date.now()`, `defaultNow()`) are a `Nat`
  parameter `now` supplied by the environment;
* `Math.random().toString(36).substring(7)` is a `String` parameter
  supplied by the environment;
* a handler that can `throw` returns `Except String α × DB`; the thrown
  message is the `Error` message of the source, and the returned `DB` is
  the store as of the throw (all modelled throws happen before any write,
  so the store is returned unchanged on the error paths);
* drizzle `.set` skips `undefined` fields, so optional update fields are
  `Option` and `none` leaves the column untouched; a nullable optional
  column is `Option (Option _)`.
-/

inductive AssetCondition where
  | baru
  | baik
  | sedang_diperbaiki
  | rusak
deriving DecidableEq, Repr

/-- Rendering of the condition enum as its database string value. -/
def AssetCondition.toStr : AssetCondition → String
  | .baru => "baru"
  | .baik => "baik"
  | .sedang_diperbaiki => "sedang_diperbaiki"
  | .rusak => "rusak"

inductive AssetCategory where
  | monitor
  | cpu
  | ac
  | kursi
  | meja
  | dispenser
  | cctv
  | router
  | kabel_lan
deriving DecidableEq, Repr

inductive ComplaintStatus where
  | perlu_perbaikan
  | urgent
  | sedang_diperbaiki
  | telah_diperbaiki
deriving DecidableEq, Repr

inductive UserRole where
  | publicRole
  | karyawan
  | admin
deriving DecidableEq, Repr

structure Asset where
  id : Nat
  name : String
  description : Option String
  category : AssetCategory
  condition : AssetCondition
  owner : String
  photo_url : Option String
  qr_code : String
  is_archived : Bool
  created_at : Nat
  updated_at : Nat
deriving DecidableEq, Repr

structure Complaint where
  id : Nat
  asset_id : Nat
  sender_name : String
  status : ComplaintStatus
  description : String
  resolved_by : Option Nat
  created_at : Nat
  updated_at : Nat
deriving DecidableEq, Repr

structure MaintenanceSchedule where
  id : Nat
  asset_id : Nat
  scheduled_by : Nat
  title : String
  description : Option String
  scheduled_date : Nat
  is_completed : Bool
  completed_at : Option Nat
  created_at : Nat
  updated_at : Nat
deriving DecidableEq, Repr

structure AssetHistory where
  id : Nat
  asset_id : Nat
  changed_by : Option Nat
  change_type : String
  old_value : Option String
  new_value : Option String
  description : Option String
  created_at : Nat
deriving DecidableEq, Repr

structure User where
  id : Nat
  email : String
  password : String
  name : String
  role : UserRole
  is_active : Bool
  created_at : Nat
  updated_at : Nat
deriving DecidableEq, Repr

structure DB where
  assets : List Asset
  complaints : List Complaint
  maintenance : List MaintenanceSchedule
  history : List AssetHistory
  users : List User
  nextAssetId : Nat
  nextComplaintId : Nat
  nextHistoryId : Nat
  nextUserId : Nat
deriving DecidableEq, Repr

/-- JavaScript `x || null` on an optional nullable string field: `undefined`,
`null` and the falsy empty string all collapse to `null`. -/
def jsStrOrNull (x : Option (Option String)) : Option String :=
  match x with
  | some (some s) => if s = "" then none else some s
  | _ => none

/-- JavaScript `x || null` on an optional numeric field: `undefined` and the
falsy `0` collapse to `null`. -/
def jsNumOrNull (x : Option Nat) : Option Nat :=
  match x with
  | some u => if u = 0 then none else some u
  | none => none

/-! ### Input shapes (after zod validation, as the handlers receive them) -/

structure CreateAssetInput where
  name : String
  description : Option (Option String)
  category : AssetCategory
  condition : AssetCondition
  owner : String
  photo_url : Option (Option String)
deriving Repr

structure UpdateAssetInput where
  id : Nat
  name : Option String
  description : Option (Option String)
  category : Option AssetCategory
  condition : Option AssetCondition
  owner : Option String
  photo_url : Option (Option String)
  is_archived : Option Bool
deriving Repr

structure CreateComplaintInput where
  asset_id : Nat
  sender_name : String
  status : ComplaintStatus
  description : String
deriving Repr

structure UpdateComplaintInput where
  id : Nat
  status : ComplaintStatus
  resolved_by : Option Nat
deriving Repr

structure CreateUserInput where
  email : String
  password : String
  name : String
  role : UserRole
deriving Repr

structure LoginInput where
  email : String
  password : String
deriving Repr

/-! ### Error messages thrown by the handlers -/

def assetNotFoundMsg (id : Nat) : String :=
  "Asset with ID " ++ Nat.repr id ++ " not found"

def notArchivedMsg (id : Nat) : String :=
  "Asset with ID " ++ Nat.repr id ++ " is not archived"

def mustArchiveMsg (id : Nat) : String :=
  "Asset with ID " ++ Nat.repr id ++ " must be archived before permanent deletion"

def complaintGuardMsg : String := "Asset not found or is archived"

/-! ### assets.ts -/

/-- Lookup of the first asset row matching an id (select + `result[0]`). -/
def getAssetById (db : DB) (id : Nat) : Option Asset :=
  db.assets.find? (fun a => a.id == id)

/-- The qr code template literal of `createAsset`. -/
def qrCodeOf (now : Nat) (randSuffix : String) : String :=
  "ASSET-" ++ Nat.repr now ++ "-" ++ randSuffix

/-- Handler `createAsset`: inserts a new row; `is_archived`, `created_at` and
`updated_at` come from the column defaults; the qr code combines the
millisecond timestamp with the random suffix supplied by the environment. -/
def createAsset (db : DB) (input : CreateAssetInput) (now : Nat)
    (randSuffix : String) : Asset × DB :=
  let a : Asset :=
    { id := db.nextAssetId
      name := input.name
      description := jsStrOrNull input.description
      category := input.category
      condition := input.condition
      owner := input.owner
      photo_url := jsStrOrNull input.photo_url
      qr_code := qrCodeOf now randSuffix
      is_archived := false
      created_at := now
      updated_at := now }
  (a, { db with assets := db.assets ++ [a], nextAssetId := db.nextAssetId + 1 })

/-- Effect of the drizzle `.set` of `updateAsset` on one row: `undefined`
fields are skipped, `updated_at` is always refreshed. -/
def applyAssetUpdate (input : UpdateAssetInput) (now : Nat) (a : Asset) : Asset :=
  { a with
    name := input.name.getD a.name
    description := input.description.getD a.description
    category := input.category.getD a.category
    condition := input.condition.getD a.condition
    owner := input.owner.getD a.owner
    photo_url := input.photo_url.getD a.photo_url
    is_archived := input.is_archived.getD a.is_archived
    updated_at := now }

/-- The audit row `updateAsset` inserts when the condition changed. -/
def statusChangeRow (db : DB) (assetId : Nat) (oldC newC : AssetCondition)
    (now : Nat) : AssetHistory :=
  { id := db.nextHistoryId
    asset_id := assetId
    changed_by := none
    change_type := "status_change"
    old_value := some oldC.toStr
    new_value := some newC.toStr
    description := some ("Asset condition changed from " ++ oldC.toStr
      ++ " to " ++ newC.toStr)
    created_at := now }

/-- Handler `updateAsset`: looks the asset up, updates the row, and appends a
"status_change" audit row exactly when the input carries a condition that
differs from the stored one.  (The second not-found check of the source is
unreachable once the first lookup succeeded and is not represented.) -/
def updateAsset (db : DB) (input : UpdateAssetInput) (now : Nat) :
    Except String Asset × DB :=
  match getAssetById db input.id with
  | none => (.error (assetNotFoundMsg input.id), db)
  | some current =>
    let db2 : DB := { db with
      assets := db.assets.map (fun a =>
        if a.id == input.id then applyAssetUpdate input now a else a) }
    let updated := applyAssetUpdate input now current
    match input.condition with
    | some c =>
      if c ≠ current.condition then
        (.ok updated, { db2 with
          history := db2.history ++ [statusChangeRow db input.id current.condition c now]
          nextHistoryId := db2.nextHistoryId + 1 })
      else (.ok updated, db2)
    | none => (.ok updated, db2)

/-- The audit row `deleteAsset` inserts. -/
def archivedRow (db : DB) (assetId : Nat) (now : Nat) : AssetHistory :=
  { id := db.nextHistoryId
    asset_id := assetId
    changed_by := none
    change_type := "archived"
    old_value := none
    new_value := none
    description := some "Asset archived (soft deleted)"
    created_at := now }

/-- Handler `deleteAsset` (archive, soft delete): any resolving id succeeds,
already-archived rows included; sets `is_archived`, refreshes `updated_at`
and appends one "archived" audit row. -/
def deleteAsset (db : DB) (id : Nat) (now : Nat) : Except String Bool × DB :=
  match getAssetById db id with
  | none => (.error (assetNotFoundMsg id), db)
  | some _ =>
    let db2 : DB := { db with
      assets := db.assets.map (fun a =>
        if a.id == id then { a with is_archived := true, updated_at := now } else a) }
    (.ok true, { db2 with
      history := db2.history ++ [archivedRow db id now]
      nextHistoryId := db2.nextHistoryId + 1 })

/-- The audit row `restoreAsset` inserts. -/
def restoredRow (db : DB) (assetId : Nat) (now : Nat) : AssetHistory :=
  { id := db.nextHistoryId
    asset_id := assetId
    changed_by := none
    change_type := "restored"
    old_value := none
    new_value := none
    description := some "Asset restored from archive"
    created_at := now }

/-- Handler `restoreAsset`: not-found and not-archived are distinct errors;
on success un-archives the row, refreshes `updated_at` and appends one
"restored" audit row. -/
def restoreAsset (db : DB) (id : Nat) (now : Nat) : Except String Asset × DB :=
  match getAssetById db id with
  | none => (.error (assetNotFoundMsg id), db)
  | some asset =>
    if asset.is_archived = false then
      (.error (notArchivedMsg id), db)
    else
      let db2 : DB := { db with
        assets := db.assets.map (fun a =>
          if a.id == id then { a with is_archived := false, updated_at := now } else a) }
      (.ok { asset with is_archived := false, updated_at := now },
        { db2 with
          history := db2.history ++ [restoredRow db id now]
          nextHistoryId := db2.nextHistoryId + 1 })

/-- Handler `permanentDeleteAsset`: guarded hard delete; cascades over
complaints, maintenance schedules and history before removing the asset. -/
def permanentDeleteAsset (db : DB) (id : Nat) : Except String Bool × DB :=
  match getAssetById db id with
  | none => (.error (assetNotFoundMsg id), db)
  | some asset =>
    if asset.is_archived = false then
      (.error (mustArchiveMsg id), db)
    else
      (.ok true, { db with
        complaints := db.complaints.filter (fun c => c.asset_id != id)
        maintenance := db.maintenance.filter (fun m => m.asset_id != id)
        history := db.history.filter (fun h => h.asset_id != id)
        assets := db.assets.filter (fun a => a.id != id) })

/-! ### complaints.ts -/

/-- Handler `createComplaint`: the lookup filters on the id AND on
`is_archived = false`, so a missing asset and an archived asset fail with
the one shared error message. -/
def createComplaint (db : DB) (input : CreateComplaintInput) (now : Nat) :
    Except String Complaint × DB :=
  match db.assets.find? (fun a => a.id == input.asset_id && a.is_archived == false) with
  | none => (.error complaintGuardMsg, db)
  | some _ =>
    let c : Complaint :=
      { id := db.nextComplaintId
        asset_id := input.asset_id
        sender_name := input.sender_name
        status := input.status
        description := input.description
        resolved_by := none
        created_at := now
        updated_at := now }
    (.ok c, { db with
      complaints := db.complaints ++ [c]
      nextComplaintId := db.nextComplaintId + 1 })

/-- Handler `updateComplaint`: verifies the complaint, verifies the user when
`resolved_by` was provided, then overwrites `status` and `resolved_by`
(`input.resolved_by || null`) and refreshes `updated_at`. -/
def updateComplaint (db : DB) (input : UpdateComplaintInput) (now : Nat) :
    Except String Complaint × DB :=
  match db.complaints.find? (fun c => c.id == input.id) with
  | none => (.error "Complaint not found", db)
  | some existing =>
    let userOk : Bool :=
      match input.resolved_by with
      | none => true
      | some u => (db.users.find? (fun w => w.id == u)).isSome
    if userOk = false then
      (.error "User not found", db)
    else
      let upd : Complaint → Complaint := fun c =>
        { c with
          status := input.status
          resolved_by := jsNumOrNull input.resolved_by
          updated_at := now }
      (.ok (upd existing),
        { db with complaints := db.complaints.map (fun c =>
            if c.id == input.id then upd c else c) })

/-! ### users.ts and auth handlers -/

/-- Replacement of the stored password by the empty string on the way out. -/
def scrubUser (u : User) : User := { u with password := "" }

/-- Handler `createUser`: stores the one-way transform of the password and
returns the row with the password overwritten by the empty string. -/
def createUser (db : DB) (input : CreateUserInput) (now : Nat) : User × DB :=
  let u : User :=
    { id := db.nextUserId
      email := input.email
      password := "hashed_" ++ input.password
      name := input.name
      role := input.role
      is_active := true
      created_at := now
      updated_at := now }
  (scrubUser u, { db with users := db.users ++ [u], nextUserId := db.nextUserId + 1 })

/-- Handler `getUsers`: all rows, passwords cleared. -/
def getUsers (db : DB) : List User :=
  db.users.map scrubUser

/-- Handler `getUserById`: single row or null, password cleared. -/
def getUserById (db : DB) (id : Nat) : Option User :=
  (db.users.find? (fun u => u.id == id)).map scrubUser

/-- Handler `login`: equality check on email, stored password and
`is_active`; the returned value carries the empty string as password. -/
def login (db : DB) (input : LoginInput) : Except String User :=
  match db.users.find? (fun u =>
      u.email == input.email && u.password == input.password && u.is_active) with
  | none => .error "Invalid email or password"
  | some u => .ok (scrubUser u)

/-- Handler `getCurrentUser`: active user by id or null, password cleared. -/
def getCurrentUser (db : DB) (id : Nat) : Option User :=
  (db.users.find? (fun u => u.id == id && u.is_active)).map scrubUser

/-! ### asset_history.ts -/

/-- Newest-first comparison used to model `orderBy desc(created_at)`. -/
def histAfter (a b : AssetHistory) : Prop := b.created_at ≤ a.created_at

instance : DecidableRel histAfter := fun a b => by
  unfold histAfter
  infer_instance

instance : IsTotal AssetHistory histAfter :=
  ⟨fun a b => (Nat.le_total b.created_at a.created_at)⟩

instance : IsTrans AssetHistory histAfter :=
  ⟨fun _ _ _ h1 h2 => Nat.le_trans h2 h1⟩

/-- Handler `getAssetHistory`: errors on a missing asset, otherwise returns
the asset's rows ordered newest-first. -/
def getAssetHistory (db : DB) (assetId : Nat) : Except String (List AssetHistory) :=
  match getAssetById db assetId with
  | none => .error (assetNotFoundMsg assetId)
  | some _ =>
    .ok (List.insertionSort histAfter
      (db.history.filter (fun h => h.asset_id == assetId)))

/-- Handler `getAssetHistoryById`: single row or null sentinel, no error. -/
def getAssetHistoryById (db : DB) (id : Nat) : Option AssetHistory :=
  db.history.find? (fun h => h.id == id)

/-! ### ai_suggestions.ts — the two-tier response parser

JavaScript values reachable from `JSON.parse` are modelled by `Json`;
`JSON.parse` itself is modelled by a fuel-based recursive-descent parser
of the JSON grammar, and the regex `\{[\s\S]*\}` by `extractJsonSpan`
(first opening brace through last closing brace). -/

inductive Json where
  | null
  | bool (b : Bool)
  | num (q : Rat)
  | str (s : String)
  | arr (elems : List Json)
  | obj (members : List (String × Json))

/-- Whitespace accepted between JSON tokens. -/
def jsonWsChar (c : Char) : Bool :=
  c == ' ' || c == '\t' || c == '\n' || c == '\r'

def skipWs (cs : List Char) : List Char :=
  cs.dropWhile jsonWsChar

def hexVal (c : Char) : Option Nat :=
  if c.isDigit then some (c.toNat - 48)
  else if 'a' ≤ c && c ≤ 'f' then some (c.toNat - 87)
  else if 'A' ≤ c && c ≤ 'F' then some (c.toNat - 55)
  else none

/-- Body of a JSON string literal, the opening quote already consumed. -/
def parseStrChars : List Char → Option (List Char × List Char)
  | [] => none
  | '"' :: rest => some ([], rest)
  | '\\' :: 'u' :: h1 :: h2 :: h3 :: h4 :: rest =>
    match hexVal h1, hexVal h2, hexVal h3, hexVal h4 with
    | some a, some b, some c, some d =>
      (parseStrChars rest).map
        (fun p => (Char.ofNat (4096 * a + 256 * b + 16 * c + d) :: p.1, p.2))
    | _, _, _, _ => none
  | '\\' :: '"' :: rest => (parseStrChars rest).map (fun p => ('"' :: p.1, p.2))
  | '\\' :: '\\' :: rest => (parseStrChars rest).map (fun p => ('\\' :: p.1, p.2))
  | '\\' :: '/' :: rest => (parseStrChars rest).map (fun p => ('/' :: p.1, p.2))
  | '\\' :: 'b' :: rest => (parseStrChars rest).map (fun p => ('\x08' :: p.1, p.2))
  | '\\' :: 'f' :: rest => (parseStrChars rest).map (fun p => ('\x0c' :: p.1, p.2))
  | '\\' :: 'n' :: rest => (parseStrChars rest).map (fun p => ('\n' :: p.1, p.2))
  | '\\' :: 'r' :: rest => (parseStrChars rest).map (fun p => ('\r' :: p.1, p.2))
  | '\\' :: 't' :: rest => (parseStrChars rest).map (fun p => ('\t' :: p.1, p.2))
  | '\\' :: _ => none
  | c :: rest =>
    if c.toNat < 32 then none
    else (parseStrChars rest).map (fun p => (c :: p.1, p.2))

def digitsToNat (ds : List Char) : Nat :=
  ds.foldl (fun a c => 10 * a + (c.toNat - 48)) 0

def parseExpDigits (cs : List Char) (pos : Bool) : Option (Int × List Char) :=
  let ds := cs.takeWhile Char.isDigit
  if ds = [] then none
  else
    some ((if pos then (digitsToNat ds : Int) else -(digitsToNat ds : Int)),
      cs.dropWhile Char.isDigit)

def parseExpSigned (cs : List Char) : Option (Int × List Char) :=
  match cs with
  | '+' :: rest => parseExpDigits rest true
  | '-' :: rest => parseExpDigits rest false
  | _ => parseExpDigits cs true

def parseExpPart (cs : List Char) : Option (Int × List Char) :=
  match cs with
  | 'e' :: rest => parseExpSigned rest
  | 'E' :: rest => parseExpSigned rest
  | _ => some (0, cs)

def parseFracPart (cs : List Char) : Option (List Char × List Char) :=
  match cs with
  | '.' :: rest =>
    let ds := rest.takeWhile Char.isDigit
    if ds = [] then none else some (ds, rest.dropWhile Char.isDigit)
  | _ => some ([], cs)

/-- Unsigned JSON number starting at the first digit. -/
def parseNumCore (cs : List Char) : Option (Rat × List Char) :=
  let intDs := cs.takeWhile Char.isDigit
  let r1 := cs.dropWhile Char.isDigit
  if intDs = [] then none
  else if intDs.length > 1 && intDs.head? == some '0' then none
  else
    match parseFracPart r1 with
    | none => none
    | some (fracDs, r2) =>
      match parseExpPart r2 with
      | none => none
      | some (e, r3) =>
        let mant : Nat := digitsToNat (intDs ++ fracDs)
        let scale : Int := e - (fracDs.length : Int)
        let q : Rat :=
          if 0 ≤ scale then (((mant : Int) * 10 ^ scale.toNat : Int) : Rat)
          else mkRat (mant : Int) (10 ^ (-scale).toNat)
        some (q, r3)

def parseNum (cs : List Char) : Option (Json × List Char) :=
  match cs with
  | '-' :: rest => (parseNumCore rest).map (fun p => (Json.num (-p.1), p.2))
  | _ => (parseNumCore cs).map (fun p => (Json.num p.1, p.2))

mutual

def parseVal : Nat → List Char → Option (Json × List Char)
  | 0, _ => none
  | fuel + 1, cs =>
    match skipWs cs with
    | 'n' :: 'u' :: 'l' :: 'l' :: rest => some (.null, rest)
    | 't' :: 'r' :: 'u' :: 'e' :: rest => some (.bool true, rest)
    | 'f' :: 'a' :: 'l' :: 's' :: 'e' :: rest => some (.bool false, rest)
    | '"' :: rest => (parseStrChars rest).map (fun p => (.str (String.mk p.1), p.2))
    | '\x7b' :: rest =>
      match skipWs rest with
      | '\x7d' :: rest2 => some (.obj [], rest2)
      | r => (parseObjMembers fuel r).map (fun p => (.obj p.1, p.2))
    | '[' :: rest =>
      match skipWs rest with
      | ']' :: rest2 => some (.arr [], rest2)
      | r => (parseArrElems fuel r).map (fun p => (.arr p.1, p.2))
    | cs2 => parseNum cs2

def parseArrElems : Nat → List Char → Option (List Json × List Char)
  | 0, _ => none
  | fuel + 1, cs =>
    match parseVal fuel cs with
    | none => none
    | some (v, rest) =>
      match skipWs rest with
      | ',' :: rest2 => (parseArrElems fuel rest2).map (fun p => (v :: p.1, p.2))
      | ']' :: rest2 => some ([v], rest2)
      | _ => none

def parseObjMembers : Nat → List Char → Option (List (String × Json) × List Char)
  | 0, _ => none
  | fuel + 1, cs =>
    match skipWs cs with
    | '"' :: rest =>
      match parseStrChars rest with
      | none => none
      | some (k, rest2) =>
        match skipWs rest2 with
        | ':' :: rest3 =>
          match parseVal fuel rest3 with
          | none => none
          | some (v, rest4) =>
            match skipWs rest4 with
            | ',' :: rest5 =>
              (parseObjMembers fuel rest5).map
                (fun p => ((String.mk k, v) :: p.1, p.2))
            | '\x7d' :: rest5 => some ([(String.mk k, v)], rest5)
            | _ => none
        | _ => none
    | _ => none

end

/-- Model of `JSON.parse`: a full-input parse of the JSON grammar. -/
def jsonParse (s : String) : Option Json :=
  match parseVal (2 * s.length + 2) s.data with
  | some (v, rest) => if skipWs rest = [] then some v else none
  | none => none

/-- Model of `response.match(/\{[\s\S]*\}/)`: the greedy span from the first
opening brace to the last closing brace, when one exists after the other. -/
def extractJsonSpan (s : String) : Option String :=
  let cs := s.data
  match cs.findIdx? (fun c => c == '\x7b'), cs.reverse.findIdx? (fun c => c == '\x7d') with
  | some i, some k =>
    let j := cs.length - 1 - k
    if i < j then some (String.mk ((cs.drop i).take (j - i + 1))) else none
  | _, _ => none

/-- JavaScript truthiness of a parsed JSON value. -/
def jsTruthy : Json → Bool
  | .null => false
  | .bool b => b
  | .num q => if q = 0 then false else true
  | .str s => if s = "" then false else true
  | .arr _ => true
  | .obj _ => true

def Json.isStr : Json → Bool
  | .str _ => true
  | _ => false

/-- Property read on a parsed object; with duplicate keys `JSON.parse` keeps
the last binding, hence the reverse lookup. -/
def jsonGetProp (j : Json) (k : String) : Option Json :=
  match j with
  | .obj ms => (ms.reverse.find? (fun p => p.1 == k)).map (fun p => p.2)
  | _ => none

/-- JavaScript `parsed.field || fallback` in the structured tier. -/
def jsPropOr (v : Option Json) (fb : String) : Json :=
  match v with
  | some x => if jsTruthy x then x else .str fb
  | none => .str fb

/-- The value record returned by `parseAiResponse`; the source annotates the
fields as strings but nothing at runtime enforces that for tier-1 values. -/
structure AiSuggestionV where
  feasibility : Json
  maintenance_prediction : Json
  replacement_recommendation : Json

/-- Whitespace for `String.prototype.trim` and for `\s` in the label regex. -/
def jsWsChar (c : Char) : Bool :=
  c == ' ' || c == '\t' || c == '\n' || c == '\r' || c == '\x0b' || c == '\x0c'

def jsTrim (s : String) : String :=
  String.mk (((s.data.dropWhile jsWsChar).reverse.dropWhile jsWsChar).reverse)

def lowerStr (s : String) : String :=
  String.mk (s.data.map Char.toLower)

def startsWithChars : List Char → List Char → Bool
  | _, [] => true
  | [], _ :: _ => false
  | c :: cs, p :: ps => c == p && startsWithChars cs ps

/-- JavaScript `hay.includes(pat)`. -/
def containsSub (hay pat : String) : Bool :=
  hay.data.tails.any (fun t => startsWithChars t pat.data)

/-- Model of `content.replace(/^[^:]*:?\s*/, '')`: the greedy anchored match
removes everything through the first colon and the whitespace after it; when
no colon occurs the whole string is the match and the result is empty. -/
def dropLabel (s : String) : String :=
  match s.data.dropWhile (fun c => !(c == ':')) with
  | [] => ""
  | _ :: t => String.mk (t.dropWhile jsWsChar)

/-- Helper `extractSection`: first line containing one of the keywords
(case-insensitively), joined with up to the next two lines, the label prefix
stripped, trimmed; `none` when no line matches. -/
def extractSection : List String → List String → Option String
  | [], _ => none
  | l :: rest, keywords =>
    if keywords.any (fun k => containsSub (lowerStr l) k) then
      some (jsTrim (dropLabel (String.intercalate " " ((l :: rest).take 3))))
    else
      extractSection rest keywords

/-- JavaScript `extractSection(...) || fallback` in the line-scan tier. -/
def jsOrStr (r : Option String) (fb : String) : Json :=
  match r with
  | some s => if s = "" then .str fb else .str s
  | none => .str fb

def scanFbFeasibility : String :=
  "Asset dalam kondisi yang memerlukan evaluasi lebih lanjut"

def scanFbMaintenance : String :=
  "Perawatan rutin disarankan sesuai jadwal standar"

def scanFbReplacement : String :=
  "Evaluasi penggantian perlu dilakukan berdasarkan analisis biaya-manfaat"

/-- Tier two of the parser: non-blank lines, keyword scan per field, fixed
fallback phrase per field. -/
def fallbackScan (response : String) : AiSuggestionV :=
  let lines := (response.splitOn "\n").filter (fun l => !(jsTrim l == ""))
  { feasibility :=
      jsOrStr (extractSection lines ["feasibility", "kelayakan"]) scanFbFeasibility
    maintenance_prediction :=
      jsOrStr (extractSection lines ["maintenance", "perawatan", "prediction"])
        scanFbMaintenance
    replacement_recommendation :=
      jsOrStr (extractSection lines ["replacement", "penggantian", "recommendation"])
        scanFbReplacement }

/-- Helper `parseAiResponse`: structured tier when a brace span parses as
JSON, otherwise the line-scan tier. -/
def parseAiResponse (response : String) : AiSuggestionV :=
  match extractJsonSpan response with
  | some span =>
    match jsonParse span with
    | some parsed =>
      { feasibility :=
          jsPropOr (jsonGetProp parsed "feasibility")
            "Analisis kelayakan tidak tersedia"
        maintenance_prediction :=
          jsPropOr (jsonGetProp parsed "maintenance_prediction")
            "Prediksi perawatan tidak tersedia"
        replacement_recommendation :=
          jsPropOr (jsonGetProp parsed "replacement_recommendation")
            "Rekomendasi penggantian tidak tersedia" }
    | none => fallbackScan response
  | none => fallbackScan response

/-! ### General lemmas about the embedding -/

/-- A row update that keeps the key untouched commutes with the keyed
first-row lookup. -/
theorem find?_map_key {α : Type} (f : α → Nat) (g : α → α) (i : Nat)
    (hg : ∀ x, f (g x) = f x) :
    ∀ l : List α,
      (l.map g).find? (fun x => f x == i) = (l.find? (fun x => f x == i)).map g := by
  intro l
  induction l with
  | nil => rfl
  | cons x l ih =>
    by_cases hx : f x = i
    · rw [List.map_cons, List.find?_cons_of_pos _ (by simp [hg, hx]),
        List.find?_cons_of_pos _ (by simp [hx])]
      rfl
    · rw [List.map_cons, List.find?_cons_of_neg _ (by simp [hg, hx]),
        List.find?_cons_of_neg _ (by simp [hx])]
      exact ih

/-- Strengthening the lookup predicate by a condition the found row meets
does not change the found row. -/
theorem find?_conj {α : Type} (p q : α → Bool) :
    ∀ {l : List α} {a : α}, l.find? p = some a → q a = true →
      l.find? (fun x => p x && q x) = some a := by
  intro l
  induction l with
  | nil => intro a h; exact absurd h (by simp)
  | cons x l ih =>
    intro a hfind hq
    by_cases hx : p x = true
    · rw [List.find?_cons_of_pos _ hx] at hfind
      cases hfind
      rw [List.find?_cons_of_pos _ (by simp [hx, hq])]
    · rw [List.find?_cons_of_neg _ hx] at hfind
      rw [List.find?_cons_of_neg _ (by simp [hx])]
      exact ih hfind hq

/-- With pairwise-distinct keys, any row carrying the looked-up key is the
found row. -/
theorem find?_key_unique {α : Type} (f : α → Nat) :
    ∀ {l : List α}, (l.map f).Nodup → ∀ {i : Nat} {a : α},
      l.find? (fun x => f x == i) = some a → ∀ x ∈ l, f x = i → x = a := by
  intro l
  induction l with
  | nil => intro _ i a h; exact absurd h (by simp)
  | cons y l ih =>
    intro hnd i a hfind x hx hxi
    rw [List.map_cons, List.nodup_cons] at hnd
    by_cases hy : f y = i
    · rw [List.find?_cons_of_pos _ (by simp [hy])] at hfind
      cases hfind
      rcases List.mem_cons.mp hx with hx1 | hx1
      · exact hx1
      · refine absurd ?_ hnd.1
        have : f x ∈ List.map f l := List.mem_map_of_mem f hx1
        rw [hy, ← hxi]
        exact this
    · rw [List.find?_cons_of_neg _ (by simp [hy])] at hfind
      rcases List.mem_cons.mp hx with hx1 | hx1
      · exact absurd (hx1 ▸ hxi) hy
      · exact ih hnd.2 hfind x hx1 hxi

/-! ### Decimal rendering lemmas for the qr-code scheme -/

/-- Numeric value of a decimal digit list, most significant first. -/
def valDigits (cs : List Char) : Nat :=
  cs.foldl (fun a c => 10 * a + (c.toNat - 48)) 0

theorem toDigitsCore_shift (fuel : Nat) :
    ∀ (n : Nat) (ds : List Char),
      Nat.toDigitsCore 10 fuel n ds = Nat.toDigitsCore 10 fuel n [] ++ ds := by
  induction fuel with
  | zero => intro n ds; rfl
  | succ fuel ih =>
    intro n ds
    simp only [Nat.toDigitsCore]
    by_cases h : n / 10 = 0
    · simp [h]
    · rw [if_neg h, if_neg h, ih (n / 10) (Nat.digitChar (n % 10) :: ds),
        ih (n / 10) [Nat.digitChar (n % 10)], List.append_assoc]
      rfl

theorem digitChar_isDigit {m : Nat} (h : m < 10) :
    (Nat.digitChar m).isDigit = true := by
  interval_cases m <;> decide

theorem digitChar_val {m : Nat} (h : m < 10) :
    (Nat.digitChar m).toNat - 48 = m := by
  interval_cases m <;> decide

theorem valDigits_toDigitsCore (fuel : Nat) :
    ∀ n, n < fuel → valDigits (Nat.toDigitsCore 10 fuel n []) = n := by
  induction fuel with
  | zero => intro n h; exact absurd h (Nat.not_lt_zero n)
  | succ fuel ih =>
    intro n hn
    have h10 : n % 10 < 10 := Nat.mod_lt _ (by omega)
    simp only [Nat.toDigitsCore]
    by_cases h : n / 10 = 0
    · rw [if_pos h]
      show valDigits [Nat.digitChar (n % 10)] = n
      have hv : (Nat.digitChar (n % 10)).toNat - 48 = n % 10 := digitChar_val h10
      simp only [valDigits, List.foldl_cons, List.foldl_nil]
      omega
    · rw [if_neg h, toDigitsCore_shift]
      have hpos : 0 < n := by
        rcases Nat.eq_zero_or_pos n with h0 | h0
        · exact absurd (by simp [h0]) h
        · exact h0
      have hd : n / 10 < fuel :=
        lt_of_lt_of_le (Nat.div_lt_self hpos (by omega)) (Nat.lt_succ_iff.mp hn)
      simp [valDigits, List.foldl_append] at *
      rw [ih (n / 10) hd, digitChar_val h10]
      omega

theorem natRepr_data (n : Nat) : (Nat.repr n).data = Nat.toDigits 10 n := rfl

theorem natRepr_inj {m n : Nat} (h : (Nat.repr m).data = (Nat.repr n).data) :
    m = n := by
  have hm := valDigits_toDigitsCore (m + 1) m (Nat.lt_succ_self m)
  have hn := valDigits_toDigitsCore (n + 1) n (Nat.lt_succ_self n)
  rw [← hm, ← hn]
  exact congrArg valDigits h

theorem toDigitsCore_all_digits (fuel : Nat) :
    ∀ (n : Nat) (ds : List Char), (∀ c ∈ ds, c.isDigit = true) →
      ∀ c ∈ Nat.toDigitsCore 10 fuel n ds, c.isDigit = true := by
  induction fuel with
  | zero => intro n ds hds; exact hds
  | succ fuel ih =>
    intro n ds hds c hc
    have h10 : n % 10 < 10 := Nat.mod_lt _ (by omega)
    simp only [Nat.toDigitsCore] at hc
    by_cases h : n / 10 = 0
    · rw [if_pos h] at hc
      rcases List.mem_cons.mp hc with hc1 | hc1
      · exact hc1 ▸ digitChar_isDigit h10
      · exact hds c hc1
    · rw [if_neg h] at hc
      refine ih (n / 10) (Nat.digitChar (n % 10) :: ds) ?_ c hc
      intro x hx
      rcases List.mem_cons.mp hx with hx1 | hx1
      · exact hx1 ▸ digitChar_isDigit h10
      · exact hds x hx1

theorem dash_not_in_repr (n : Nat) : '-' ∉ (Nat.repr n).data := by
  intro h
  have := toDigitsCore_all_digits (n + 1) n [] (by simp) '-' h
  exact absurd this (by decide)

theorem dashfree_append_inj :
    ∀ {r1 : List Char} {r2 s1 s2 : List Char}, '-' ∉ r1 → '-' ∉ r2 →
      r1 ++ '-' :: s1 = r2 ++ '-' :: s2 → r1 = r2 ∧ s1 = s2 := by
  intro r1
  induction r1 with
  | nil =>
    intro r2 s1 s2 _ h2 he
    cases r2 with
    | nil => simpa using he
    | cons y t2 =>
      simp only [List.nil_append, List.cons_append, List.cons.injEq] at he
      exact absurd (he.1 ▸ List.mem_cons_self y t2) (he.1 ▸ h2)
  | cons x t1 ih =>
    intro r2 s1 s2 h1 h2 he
    cases r2 with
    | nil =>
      simp only [List.cons_append, List.nil_append, List.cons.injEq] at he
      exact absurd (he.1 ▸ List.mem_cons_self x t1) (he.1 ▸ h1)
    | cons y t2 =>
      simp only [List.cons_append, List.cons.injEq] at he
      have hrec := ih (fun hm => h1 (List.mem_cons_of_mem x hm))
        (fun hm => h2 (List.mem_cons_of_mem y hm)) he.2
      exact ⟨by rw [he.1, hrec.1], hrec.2⟩

theorem stringDataInj {a b : String} (h : a.data = b.data) : a = b := by
  cases a
  cases b
  exact congrArg String.mk h

/-- The qr-code scheme is injective in the timestamp/suffix pair, because the
decimal timestamp rendering never contains the dash delimiter. -/
theorem qrCodeOf_inj {n1 n2 : Nat} {s1 s2 : String}
    (h : qrCodeOf n1 s1 = qrCodeOf n2 s2) : n1 = n2 ∧ s1 = s2 := by
  have hd := congrArg String.data h
  simp only [qrCodeOf, String.data_append, List.append_assoc] at hd
  have hd2 : (Nat.repr n1).data ++ '-' :: s1.data
      = (Nat.repr n2).data ++ '-' :: s2.data := by
    simpa using List.append_cancel_left hd
  have hsplit := dashfree_append_inj (dash_not_in_repr n1) (dash_not_in_repr n2) hd2
  exact ⟨natRepr_inj hsplit.1, stringDataInj hsplit.2⟩

/-- A keyed row update inside an asset-table map is what the next lookup of
that key returns. -/
theorem getAssetById_map_update (db : DB) (id : Nat) (u : Asset → Asset)
    (hu : ∀ x, (u x).id = x.id) {a : Asset} (ha : getAssetById db id = some a) :
    (db.assets.map (fun x => if x.id == id then u x else x)).find?
      (fun x => x.id == id) = some (u a) := by
  have hg : ∀ x, Asset.id (if x.id == id then u x else x) = Asset.id x := by
    intro x
    by_cases hx : (x.id == id) = true <;> simp [hx, hu]
  rw [find?_map_key Asset.id (fun x => if x.id == id then u x else x) id hg]
  unfold getAssetById at ha
  rw [ha]
  have hpa := List.find?_some ha
  have hpa2 : (a.id == id) = true := hpa
  have heq : a.id = id := by simpa using hpa2
  simp [heq]

/-! ### Sample rows used to instantiate the claims on concrete stores -/

def exAsset1 : Asset :=
  { id := 1, name := "Monitor Dell 24", description := none, category := .monitor
    condition := .baru, owner := "John Doe", photo_url := none
    qr_code := "ASSET-0-x1", is_archived := true, created_at := 0, updated_at := 0 }

def exAsset2 : Asset :=
  { id := 2, name := "CPU Rakitan", description := some "unit lama"
    category := .cpu, condition := .baik, owner := "Jane", photo_url := none
    qr_code := "ASSET-0-x2", is_archived := false, created_at := 1, updated_at := 1 }

def exUser7 : User :=
  { id := 7, email := "ana@siac.id", password := "hashed_rahasia", name := "Ana"
    role := .admin, is_active := true, created_at := 0, updated_at := 0 }

def exHist1 : AssetHistory :=
  { id := 1, asset_id := 1, changed_by := none, change_type := "archived"
    old_value := none, new_value := none, description := none, created_at := 3 }

def exComplaint1 : Complaint :=
  { id := 1, asset_id := 1, sender_name := "Budi", status := .perlu_perbaikan
    description := "layar mati", resolved_by := some 7
    created_at := 0, updated_at := 0 }

def exDb : DB :=
  { assets := [exAsset1, exAsset2], complaints := [exComplaint1]
    maintenance := [], history := [exHist1], users := [exUser7]
    nextAssetId := 3, nextComplaintId := 2, nextHistoryId := 2, nextUserId := 8 }

/-! ### Claim theorems -/

/-- C1: `permanentDeleteAsset` on an unresolved id fails with the not-found
error and changes nothing; on an active (non-archived) asset it fails with
the archive-first precondition error and leaves every table unchanged; on an
archived asset it succeeds, removing the asset row and every complaint,
maintenance-schedule and history row that references it, so a subsequent
`getAssetById` returns null. -/
theorem permanentDeleteAsset_claim (db : DB) (id : Nat) :
    (getAssetById db id = none →
      permanentDeleteAsset db id = (.error (assetNotFoundMsg id), db)) ∧
    (∀ a, getAssetById db id = some a → a.is_archived = false →
      permanentDeleteAsset db id = (.error (mustArchiveMsg id), db)) ∧
    (∀ a, getAssetById db id = some a → a.is_archived = true →
      (permanentDeleteAsset db id).1 = .ok true ∧
      getAssetById (permanentDeleteAsset db id).2 id = none ∧
      (∀ c : Complaint, c ∈ (permanentDeleteAsset db id).2.complaints ↔
        c ∈ db.complaints ∧ c.asset_id ≠ id) ∧
      (∀ m : MaintenanceSchedule, m ∈ (permanentDeleteAsset db id).2.maintenance ↔
        m ∈ db.maintenance ∧ m.asset_id ≠ id) ∧
      (∀ h : AssetHistory, h ∈ (permanentDeleteAsset db id).2.history ↔
        h ∈ db.history ∧ h.asset_id ≠ id) ∧
      (∀ x : Asset, x ∈ (permanentDeleteAsset db id).2.assets ↔
        x ∈ db.assets ∧ x.id ≠ id)) := by
  refine ⟨?_, ?_, ?_⟩
  · intro hnone
    simp [permanentDeleteAsset, hnone]
  · intro a ha harch
    simp [permanentDeleteAsset, ha, harch]
  · intro a ha harch
    simp only [permanentDeleteAsset, ha]
    rw [if_neg (by simp [harch])]
    refine ⟨rfl, ?_, ?_, ?_, ?_, ?_⟩
    · simp only [getAssetById]
      rw [List.find?_eq_none]
      intro x hx
      simp only [List.mem_filter, bne_iff_ne] at hx
      simp [hx.2]
    · intro c; simp [List.mem_filter]
    · intro m; simp [List.mem_filter]
    · intro h; simp [List.mem_filter]
    · intro x; simp [List.mem_filter]

/-- C1 witness: deleting the archived sample asset succeeds and it is gone. -/
theorem permanentDeleteAsset_claim_witness :
    (permanentDeleteAsset exDb 1).1 = .ok true ∧
    getAssetById (permanentDeleteAsset exDb 1).2 1 = none := by
  have h := (permanentDeleteAsset_claim exDb 1).2.2 exAsset1 rfl rfl
  exact ⟨h.1, h.2.1⟩

/-- Restore on a resolving, non-archived asset is the precondition error. -/
theorem restoreAsset_not_archived {db : DB} {id : Nat} {a : Asset} (now : Nat)
    (ha : getAssetById db id = some a) (harch : a.is_archived = false) :
    restoreAsset db id now = (.error (notArchivedMsg id), db) := by
  simp only [restoreAsset, ha]
  rw [if_pos harch]

/-- Archive on any resolving asset succeeds and appends its audit row. -/
theorem deleteAsset_found {db : DB} {id : Nat} {a : Asset} (now : Nat)
    (ha : getAssetById db id = some a) :
    ∃ db3, deleteAsset db id now = (.ok true, db3) ∧
      db3.history = db.history ++ [archivedRow db id now] ∧
      (archivedRow db id now).change_type = "archived" := by
  simp only [deleteAsset, ha]
  exact ⟨_, rfl, rfl, rfl⟩

/-- C3: `restoreAsset` fails with the not-found error on an unresolved id,
fails with the distinct not-archived precondition error (state unchanged) on
an active asset, and on an archived asset clears the flag, refreshes
`updated_at`, appends exactly one "restored" history row, and a second
restore right after fails with the precondition error. -/
theorem restoreAsset_claim (db : DB) (id : Nat) (now now2 : Nat) :
    (getAssetById db id = none →
      restoreAsset db id now = (.error (assetNotFoundMsg id), db)) ∧
    (∀ a, getAssetById db id = some a → a.is_archived = false →
      restoreAsset db id now = (.error (notArchivedMsg id), db)) ∧
    (∀ a, getAssetById db id = some a → a.is_archived = true →
      ∃ a2 db2, restoreAsset db id now = (.ok a2, db2) ∧
        a2.is_archived = false ∧ a2.updated_at = now ∧
        db2.history = db.history ++ [restoredRow db id now] ∧
        (restoredRow db id now).change_type = "restored" ∧
        restoreAsset db2 id now2 = (.error (notArchivedMsg id), db2)) := by
  refine ⟨?_, ?_, ?_⟩
  · intro hnone
    simp [restoreAsset, hnone]
  · intro a ha harch
    exact restoreAsset_not_archived now ha harch
  · intro a ha harch
    simp only [restoreAsset, ha]
    rw [if_neg (by simp [harch])]
    refine ⟨_, _, rfl, rfl, rfl, rfl, rfl, ?_⟩
    have hfind := getAssetById_map_update db id
      (fun x => { x with is_archived := false, updated_at := now })
      (fun _ => rfl) ha
    exact restoreAsset_not_archived now2 hfind rfl

/-- C3 witness: restoring the archived sample asset succeeds once and the
immediate second restore fails with the not-archived precondition error. -/
theorem restoreAsset_claim_witness :
    ∃ a2 db2, restoreAsset exDb 1 9 = (.ok a2, db2) ∧
      a2.is_archived = false ∧
      restoreAsset db2 1 10 = (.error (notArchivedMsg 1), db2) := by
  obtain ⟨a2, db2, h1, h2, _, _, _, h6⟩ :=
    (restoreAsset_claim exDb 1 9 10).2.2 exAsset1 rfl rfl
  exact ⟨a2, db2, h1, h2, h6⟩

/-- C6: `deleteAsset` (archive) fails only on an unresolved id; on any
resolving id — already archived or not — it succeeds, archives the row,
refreshes `updated_at` and appends exactly one "archived" history row, and
an immediate second call succeeds again appending one more such row. -/
theorem deleteAsset_claim (db : DB) (id : Nat) (now now2 : Nat) :
    (getAssetById db id = none →
      deleteAsset db id now = (.error (assetNotFoundMsg id), db)) ∧
    (∀ a, getAssetById db id = some a →
      ∃ db2, deleteAsset db id now = (.ok true, db2) ∧
        getAssetById db2 id = some { a with is_archived := true, updated_at := now } ∧
        db2.history = db.history ++ [archivedRow db id now] ∧
        (archivedRow db id now).change_type = "archived" ∧
        ∃ db3, deleteAsset db2 id now2 = (.ok true, db3) ∧
          db3.history = db2.history ++ [archivedRow db2 id now2] ∧
          (archivedRow db2 id now2).change_type = "archived") := by
  constructor
  · intro hnone
    simp [deleteAsset, hnone]
  · intro a ha
    simp only [deleteAsset, ha]
    have hfind := getAssetById_map_update db id
      (fun x => { x with is_archived := true, updated_at := now })
      (fun _ => rfl) ha
    refine ⟨_, rfl, hfind, rfl, rfl, ?_⟩
    exact deleteAsset_found now2 hfind

/-- C6 witness: archiving the active sample asset succeeds, and archiving it
again right away succeeds as well. -/
theorem deleteAsset_claim_witness :
    ∃ db2, deleteAsset exDb 2 9 = (.ok true, db2) ∧
      ∃ db3, deleteAsset db2 2 10 = (.ok true, db3) := by
  obtain ⟨db2, h1, _, _, _, db3, h2, _, _⟩ :=
    (deleteAsset_claim exDb 2 9 10).2 exAsset2 rfl
  exact ⟨db2, h1, db3, h2⟩

/-- Generic form of the keyed-update/lookup commutation used for complaint
rows. -/
theorem find?_map_update {α : Type} (f : α → Nat) (u : α → α)
    (hu : ∀ x, f (u x) = f x) (i : Nat) {l : List α} {a : α}
    (ha : l.find? (fun x => f x == i) = some a) :
    (l.map (fun x => if f x == i then u x else x)).find? (fun x => f x == i)
      = some (u a) := by
  have hg : ∀ x, f (if f x == i then u x else x) = f x := by
    intro x
    by_cases hx : (f x == i) = true <;> simp [hx, hu]
  rw [find?_map_key f (fun x => if f x == i then u x else x) i hg]
  rw [ha]
  have hpa := List.find?_some ha
  have hpa2 : (f a == i) = true := hpa
  have heq : f a = i := by simpa using hpa2
  simp [heq]

/-- C2: `updateAsset` fails with the not-found error on an unresolved id (no
history row appended, nothing changed); on success `updated_at` is always
refreshed, and exactly one "status_change" history row — old value the
stored condition, new value the incoming one, `changed_by` null — is
appended precisely when the input carries a condition different from the
stored one; an update whose condition is absent or unchanged appends no
history row. -/
theorem updateAsset_claim (db : DB) (input : UpdateAssetInput) (now : Nat) :
    (getAssetById db input.id = none →
      updateAsset db input now = (.error (assetNotFoundMsg input.id), db)) ∧
    (∀ cur, getAssetById db input.id = some cur →
      ∃ a2 db2, updateAsset db input now = (.ok a2, db2) ∧
        a2.updated_at = now ∧
        (∀ c, input.condition = some c → c ≠ cur.condition →
          ∃ row, db2.history = db.history ++ [row] ∧
            row.change_type = "status_change" ∧
            row.old_value = some cur.condition.toStr ∧
            row.new_value = some c.toStr ∧
            row.changed_by = none) ∧
        ((input.condition = none ∨ input.condition = some cur.condition) →
          db2.history = db.history)) := by
  constructor
  · intro hnone
    simp [updateAsset, hnone]
  · intro cur ha
    simp only [updateAsset, ha]
    cases hc : input.condition with
    | none =>
      refine ⟨_, _, rfl, rfl, ?_, fun _ => rfl⟩
      intro c hc2
      exact absurd hc2 (by simp)
    | some c =>
      by_cases hne : c = cur.condition
      · simp only [if_neg (not_not_intro hne)]
        refine ⟨_, _, rfl, rfl, ?_, fun _ => rfl⟩
        intro c2 hc2 hne2
        injection hc2 with h
        exact absurd (h ▸ hne) hne2
      · simp only [if_pos hne]
        refine ⟨_, _, rfl, rfl, ?_, ?_⟩
        · intro c2 hc2 _
          injection hc2 with h
          subst h
          exact ⟨_, rfl, rfl, rfl, rfl, rfl⟩
        · intro hdisj
          rcases hdisj with h | h
          · exact absurd h (by simp)
          · injection h with h2
            exact absurd h2 hne

def exUpdInput : UpdateAssetInput :=
  { id := 2, name := none, description := none, category := none
    condition := some .sedang_diperbaiki, owner := none, photo_url := none
    is_archived := none }

/-- C2 witness: updating the stored condition "baik" to "sedang_diperbaiki"
appends exactly one status-change history row with those two values. -/
theorem updateAsset_claim_witness :
    ∃ a2 db2, updateAsset exDb exUpdInput 9 = (.ok a2, db2) ∧
      ∃ row, db2.history = exDb.history ++ [row] ∧
        row.change_type = "status_change" ∧
        row.old_value = some "baik" ∧
        row.new_value = some "sedang_diperbaiki" ∧
        row.changed_by = none := by
  obtain ⟨a2, db2, h1, _, h3, _⟩ :=
    (updateAsset_claim exDb exUpdInput 9).2 exAsset2 rfl
  obtain ⟨row, hr1, hr2, hr3, hr4, hr5⟩ := h3 .sedang_diperbaiki rfl (by decide)
  exact ⟨a2, db2, h1, row, hr1, hr2, hr3, hr4, hr5⟩

/-- C4: `createComplaint` fails with the single shared not-found-or-archived
error — indistinguishable between the two cases — both when the asset id
does not resolve and when it resolves to an archived asset (no complaint row
inserted, state unchanged); on a non-archived asset it inserts and returns
the complaint row. -/
theorem createComplaint_claim (db : DB) (input : CreateComplaintInput) (now : Nat) :
    (getAssetById db input.asset_id = none →
      createComplaint db input now = (.error complaintGuardMsg, db)) ∧
    ((db.assets.map Asset.id).Nodup →
      ∀ a, getAssetById db input.asset_id = some a → a.is_archived = true →
        createComplaint db input now = (.error complaintGuardMsg, db)) ∧
    (∀ a, getAssetById db input.asset_id = some a → a.is_archived = false →
      ∃ c db2, createComplaint db input now = (.ok c, db2) ∧
        db2.complaints = db.complaints ++ [c] ∧
        c.asset_id = input.asset_id ∧ c.sender_name = input.sender_name ∧
        c.status = input.status ∧ c.description = input.description) := by
  refine ⟨?_, ?_, ?_⟩
  · intro hnone
    have hfn : db.assets.find?
        (fun a => a.id == input.asset_id && a.is_archived == false) = none := by
      rw [List.find?_eq_none]
      intro x hx hpred
      have hx2 := List.find?_eq_none.mp hnone x hx
      simp only [Bool.and_eq_true] at hpred
      exact hx2 hpred.1
    simp only [createComplaint]
    rw [hfn]
  · intro hnd a ha harch
    have hfn : db.assets.find?
        (fun a => a.id == input.asset_id && a.is_archived == false) = none := by
      rw [List.find?_eq_none]
      intro x hx hpred
      simp only [Bool.and_eq_true] at hpred
      have hxid : x.id = input.asset_id := by simpa using hpred.1
      have hxa := find?_key_unique Asset.id hnd ha x hx hxid
      rw [hxa, harch] at hpred
      simpa using hpred.2
    simp only [createComplaint]
    rw [hfn]
  · intro a ha harch
    have hfs : db.assets.find?
        (fun a => a.id == input.asset_id && a.is_archived == false) = some a := by
      refine find?_conj _ _ ha ?_
      simp [harch]
    simp only [createComplaint, hfs]
    exact ⟨_, _, rfl, rfl, rfl, rfl, rfl, rfl⟩

def exComplaintInput1 : CreateComplaintInput :=
  { asset_id := 1, sender_name := "Tono", status := .perlu_perbaikan
    description := "mati total" }

/-- C4 witness: a complaint against the archived sample asset fails exactly
as it would for a missing asset, with the shared error message. -/
theorem createComplaint_claim_witness :
    createComplaint exDb exComplaintInput1 5 = (.error complaintGuardMsg, exDb) :=
  (createComplaint_claim exDb exComplaintInput1 5).2.1 (by decide) exAsset1 rfl rfl

/-- C10 (implicit): `updateComplaint` overwrites `resolved_by` on every
successful call; when the input omits `resolved_by`, the stored value is set
to null, erasing a previously recorded resolver, even if only the status was
meant to change. -/
theorem updateComplaint_claim (db : DB) (input : UpdateComplaintInput) (now : Nat) :
    (db.complaints.find? (fun c => c.id == input.id) = none →
      updateComplaint db input now = (.error "Complaint not found", db)) ∧
    (∀ c, db.complaints.find? (fun x => x.id == input.id) = some c →
      input.resolved_by = none →
      ∃ c2 db2, updateComplaint db input now = (.ok c2, db2) ∧
        c2.resolved_by = none ∧ c2.status = input.status ∧ c2.updated_at = now ∧
        db2.complaints.find? (fun x => x.id == input.id) = some c2) := by
  constructor
  · intro hnone
    simp [updateComplaint, hnone]
  · intro c hc hrb
    simp only [updateComplaint, hc, hrb]
    rw [if_neg (by simp)]
    refine ⟨_, _, rfl, by simp [jsNumOrNull], rfl, rfl, ?_⟩
    exact find?_map_update Complaint.id
      (fun x =>
        { x with
          status := input.status
          resolved_by := jsNumOrNull none
          updated_at := now })
      (fun _ => rfl) input.id hc

def exUpdComplaintInput : UpdateComplaintInput :=
  { id := 1, status := .telah_diperbaiki, resolved_by := none }

/-- C10 witness: a status-only update of the resolved sample complaint
(resolver previously user 7) erases the stored resolver. -/
theorem updateComplaint_claim_witness :
    ∃ c2 db2, updateComplaint exDb exUpdComplaintInput 9 = (.ok c2, db2) ∧
      c2.resolved_by = none ∧ exComplaint1.resolved_by = some 7 := by
  obtain ⟨c2, db2, h1, h2, _, _, _⟩ :=
    (updateComplaint_claim exDb exUpdComplaintInput 9).2 exComplaint1 rfl rfl
  exact ⟨c2, db2, h1, h2, rfl⟩

/-! ### Password-boundary helpers -/

def passwordCleared : Option User → Prop
  | some u => u.password = ""
  | none => True

def passwordClearedE : Except String User → Prop
  | .ok u => u.password = ""
  | .error _ => True

/-- C8: every handler returning a user-shaped value — `createUser`,
`getUsers`, `getUserById`, `login`, `getCurrentUser` — presents the password
field as the empty string, for every stored user and every input; the stored
password transform never reaches the caller-visible output. -/
theorem usersPassword_claim (db : DB) (inp : CreateUserInput) (now : Nat)
    (li : LoginInput) (uid : Nat) :
    (createUser db inp now).1.password = "" ∧
    ((getUsers db).all (fun u => u.password == "")) = true ∧
    passwordCleared (getUserById db uid) ∧
    passwordClearedE (login db li) ∧
    passwordCleared (getCurrentUser db uid) := by
  refine ⟨rfl, ?_, ?_, ?_, ?_⟩
  · simp [getUsers, List.all_eq_true, List.mem_map, scrubUser]
  · unfold getUserById
    cases h : db.users.find? (fun u => u.id == uid) with
    | none => simp [passwordCleared]
    | some u => simp [passwordCleared, scrubUser]
  · unfold login
    cases h : db.users.find? (fun u =>
        u.email == li.email && u.password == li.password && u.is_active) with
    | none => simp [passwordClearedE]
    | some u => simp [passwordClearedE, scrubUser]
  · unfold getCurrentUser
    cases h : db.users.find? (fun u => u.id == uid && u.is_active) with
    | none => simp [passwordCleared]
    | some u => simp [passwordCleared, scrubUser]

/-- C9: `getAssetHistory` fails with the not-found error when the asset id
does not resolve, and otherwise returns exactly that asset's history rows
ordered newest-first — an asset with zero rows yields the empty list, not an
error; `getAssetHistoryById` is asymmetric and returns the null sentinel
(no error) on a missing history-row id. -/
theorem getAssetHistory_claim (db : DB) (assetId hid : Nat) :
    (getAssetById db assetId = none →
      getAssetHistory db assetId = .error (assetNotFoundMsg assetId)) ∧
    (∀ a, getAssetById db assetId = some a →
      ∃ l, getAssetHistory db assetId = .ok l ∧
        List.Pairwise histAfter l ∧
        l.Perm (db.history.filter (fun h => h.asset_id == assetId)) ∧
        (db.history.filter (fun h => h.asset_id == assetId) = [] → l = [])) ∧
    ((∀ h ∈ db.history, h.id ≠ hid) → getAssetHistoryById db hid = none) := by
  refine ⟨?_, ?_, ?_⟩
  · intro hnone
    simp [getAssetHistory, hnone]
  · intro a ha
    simp only [getAssetHistory, ha]
    refine ⟨_, rfl, ?_, ?_, ?_⟩
    · exact List.sorted_insertionSort histAfter _
    · exact List.perm_insertionSort histAfter _
    · intro hemp
      rw [hemp]
      rfl
  · intro hmiss
    unfold getAssetHistoryById
    rw [List.find?_eq_none]
    intro x hx
    simp [hmiss x hx]

/-- C9 witness: the sample asset 2 has zero history rows and yields the empty
list, while the unused id 99 fails with the not-found error. -/
theorem getAssetHistory_claim_witness :
    getAssetHistory exDb 2 = .ok [] ∧
    getAssetHistory exDb 99 = .error (assetNotFoundMsg 99) := by
  constructor
  · obtain ⟨l, h1, _, _, h4⟩ := (getAssetHistory_claim exDb 2 0).2.1 exAsset2 rfl
    rw [h1, h4 rfl]
  · exact (getAssetHistory_claim exDb 99 0).1 rfl

/-! ### Claims about the two-tier AI response parser -/

theorem jsTruthy_jsPropOr (v : Option Json) (fb : String) (h : fb ≠ "") :
    jsTruthy (jsPropOr v fb) = true := by
  cases v with
  | none => simp [jsPropOr, jsTruthy, h]
  | some x =>
    cases hx : jsTruthy x with
    | true => simp [jsPropOr, hx]
    | false =>
      have hfb : jsPropOr (some x) fb = .str fb := by simp [jsPropOr, hx]
      rw [hfb]
      simp [jsTruthy, h]

theorem jsTruthy_jsOrStr (r : Option String) (fb : String) (h : fb ≠ "") :
    jsTruthy (jsOrStr r fb) = true := by
  cases r with
  | none => simp [jsOrStr, jsTruthy, h]
  | some s =>
    by_cases hs : s = ""
    · simp [jsOrStr, hs, jsTruthy, h]
    · simp [jsOrStr, hs, jsTruthy]

theorem isStr_jsOrStr (r : Option String) (fb : String) :
    (jsOrStr r fb).isStr = true := by
  cases r with
  | none => rfl
  | some s => by_cases hs : s = "" <;> simp [jsOrStr, hs, Json.isStr]

def aiNumInput : String :=
  "\x7b\"feasibility\":1,\"maintenance_prediction\":2,\"replacement_recommendation\":3\x7d"

/-- C5 counterexample: on a valid JSON span whose fields are truthy numbers,
`parseAiResponse` passes the numbers through unchanged — the returned
feasibility field is not a string at all, refuting "all three fields are
non-empty strings" as stated. -/
theorem parseAiResponse_counterexample :
    (parseAiResponse aiNumInput).feasibility.isStr = false ∧
    jsTruthy (parseAiResponse aiNumInput).feasibility = true := ⟨rfl, rfl⟩

/-- C5 (amended): `parseAiResponse` never throws, and for every input string
all three fields are truthy values — in particular never null, absent or
empty; each is a non-empty string except that a truthy non-string value
carried by the first-tier parsed JSON object is passed through verbatim, so
whenever the first tier yields no JSON object all three fields are
(non-empty) strings. -/
theorem parseAiResponse_amended (s : String) :
    jsTruthy (parseAiResponse s).feasibility = true ∧
    jsTruthy (parseAiResponse s).maintenance_prediction = true ∧
    jsTruthy (parseAiResponse s).replacement_recommendation = true ∧
    (Option.bind (extractJsonSpan s) jsonParse = none →
      (parseAiResponse s).feasibility.isStr = true ∧
      (parseAiResponse s).maintenance_prediction.isStr = true ∧
      (parseAiResponse s).replacement_recommendation.isStr = true) := by
  cases hspan : extractJsonSpan s with
  | none =>
    simp only [parseAiResponse, hspan]
    exact ⟨jsTruthy_jsOrStr _ _ (by decide), jsTruthy_jsOrStr _ _ (by decide),
      jsTruthy_jsOrStr _ _ (by decide),
      fun _ => ⟨isStr_jsOrStr _ _, isStr_jsOrStr _ _, isStr_jsOrStr _ _⟩⟩
  | some span =>
    cases hp : jsonParse span with
    | none =>
      simp only [parseAiResponse, hspan, hp]
      exact ⟨jsTruthy_jsOrStr _ _ (by decide), jsTruthy_jsOrStr _ _ (by decide),
        jsTruthy_jsOrStr _ _ (by decide),
        fun _ => ⟨isStr_jsOrStr _ _, isStr_jsOrStr _ _, isStr_jsOrStr _ _⟩⟩
    | some parsed =>
      simp only [parseAiResponse, hspan, hp]
      refine ⟨jsTruthy_jsPropOr _ _ (by decide), jsTruthy_jsPropOr _ _ (by decide),
        jsTruthy_jsPropOr _ _ (by decide), ?_⟩
      intro hbind
      simp only [Option.bind] at hbind
      rw [hp] at hbind
      exact absurd hbind (by simp)

/-- C5 witness: a prose-only response takes the line-scan tier and yields a
truthy string field. -/
theorem parseAiResponse_amended_witness :
    jsTruthy (parseAiResponse "tanpa data").feasibility = true ∧
    (parseAiResponse "tanpa data").feasibility.isStr = true :=
  ⟨(parseAiResponse_amended "tanpa data").1,
    ((parseAiResponse_amended "tanpa data").2.2.2 rfl).1⟩

/-! ### Claims about asset creation and the qr-code scheme -/

def exCreateInput : CreateAssetInput :=
  { name := "AC ruang rapat", description := none, category := .ac
    condition := .baru, owner := "Ops", photo_url := none }

/-- C7 counterexample: two assets created in the same millisecond with the
same random suffix are distinct rows (fresh serial ids) yet receive the very
same qr code, refuting unconditional distinctness of generated qr codes. -/
theorem createAsset_counterexample :
    (createAsset exDb exCreateInput 5 "ab").1.qr_code
      = (createAsset (createAsset exDb exCreateInput 5 "ab").2
          exCreateInput 5 "ab").1.qr_code ∧
    (createAsset exDb exCreateInput 5 "ab").1.id
      ≠ (createAsset (createAsset exDb exCreateInput 5 "ab").2
          exCreateInput 5 "ab").1.id := ⟨rfl, by decide⟩

/-- C7 (amended): every created asset starts with `is_archived = false`, its
qr code is exactly the "ASSET-" prefix followed by the decimal creation
timestamp, a dash, and the random suffix, and the creation writes no history
row; two creations receive distinct qr codes whenever the millisecond
timestamp or the random suffix differ — uniqueness is only probabilistic,
since equal timestamp and suffix collide. -/
theorem createAsset_claim (db : DB) (input : CreateAssetInput) (now : Nat)
    (rs : String) :
    (createAsset db input now rs).1.is_archived = false ∧
    (createAsset db input now rs).1.qr_code
      = "ASSET-" ++ Nat.repr now ++ "-" ++ rs ∧
    (createAsset db input now rs).2.history = db.history ∧
    (∀ db2 input2 now2 rs2, now ≠ now2 ∨ rs ≠ rs2 →
      (createAsset db input now rs).1.qr_code
        ≠ (createAsset db2 input2 now2 rs2).1.qr_code) := by
  refine ⟨rfl, rfl, rfl, ?_⟩
  intro db2 input2 now2 rs2 hdiff heq
  have h := qrCodeOf_inj heq
  rcases hdiff with h1 | h1
  · exact h1 h.1
  · exact h1 h.2

/-- C7 witness: same millisecond, different random suffixes, distinct codes. -/
theorem createAsset_claim_witness :
    (createAsset exDb exCreateInput 5 "ab").1.qr_code
      ≠ (createAsset exDb exCreateInput 5 "cd").1.qr_code :=
  (createAsset_claim exDb exCreateInput 5 "ab").2.2.2
    exDb exCreateInput 5 "cd" (Or.inr (by decide))
